import Mathlib

/-!
Shallow embedding of `jina/peapods/pods/k8s.py`: the Kubernetes pod
orchestration core (`K8sPod` and its inner `_K8sDeployment` class).

Python values are modelled as follows: optional strings become
`Option String` (with Python truthiness: `None` and `''` are falsy),
Python `int` becomes `Int`, Python lists become `List`, and the
`set()` of pod IPs becomes a duplicate-free `List String` grown by
`addIp`.  Functions that can raise are embedded in `Except`.
Collaborator code that is not part of the sources
(`kubernetes_deployment`, `kubernetes_tools`, `BasePod`/`ExitFIFO`)
is passed in as parameters or modelled from the spec, as noted on
each definition.
-/

deriving instance DecidableEq for Except

namespace K8s

/-- `jina.__default_executor__`, the sentinel meaning "use the bundled
default executor" (external constant; its concrete value is irrelevant
to every claim, only its identity as a sentinel). -/
def default_executor : String := "BaseExecutor"

/-- Python truthiness of an optional string: `None` and `''` are falsy. -/
def pyTruthy : Option String → Bool
  | none => false
  | some s => !(s == "")

/-- Python `x or y` for an optional string `x`: yields `y` when `x` is
falsy (`None` or `''`), else the contents of `x`. -/
def pyOr (x : Option String) (y : String) : String :=
  match x with
  | none => y
  | some s => if s == "" then y else s

/-- The argument `Namespace` handed to `K8sPod`, restricted to the
attributes the orchestration core reads.  Attributes read through
`getattr(args, ..., default)` are fields with that default. -/
structure Args where
  name : String
  parallel : Int := 1
  replicas : Int := 1
  uses : String := ""
  uses_before : Option String := none
  uses_after : Option String := none
  uses_with : Option String := none
  k8s_namespace : String := ""
  noblock_on_start : Bool := false
  port_expose : Int := 8080
deriving DecidableEq, Inhabited

/-- Result of `K8sPod._parse_deployment_args`: the dict with keys
`head_deployment`, `tail_deployment`, `deployments`. -/
structure ParsedArgs where
  head_deployment : Option Args
  tail_deployment : Option Args
  deployments : List Args
deriving DecidableEq, Inhabited

/-- Error taxonomy of the spec.  `invalidTopologyArgs` is the
construction-time validation error the spec names; the embedding of
`_parse_deployment_args` lives in `Except` over it so that the claim
"construction fails fast" is statable. -/
inductive K8sError where
  | invalidTopologyArgs
deriving DecidableEq

/-- `K8sPod._parse_deployment_args(self, args)` (k8s.py lines 229-252).
`needs_count` stands for `len(self.needs)`.  `parallel`, `replicas`,
`uses_before`, `uses_after` are read with `getattr` defaults; the head
(resp. tail) deployment args are a copy of `args` with `uses` replaced
by `args.uses_before or __default_executor__` (resp. `uses_after`);
`deployments` is `[args] * parallel`.  The Python body contains no
`raise`, so the embedding always returns `.ok`. -/
def _parse_deployment_args (needs_count : Nat) (args : Args) :
    Except K8sError ParsedArgs :=
  let head_deployment :=
    if 1 < args.parallel ∨ (1 < needs_count ∧ 1 < args.replicas) ∨
        pyTruthy args.uses_before = true then
      some { args with uses := pyOr args.uses_before default_executor }
    else none
  let tail_deployment :=
    if 1 < args.parallel ∨ pyTruthy args.uses_after = true then
      some { args with uses := pyOr args.uses_after default_executor }
    else none
  .ok { head_deployment := head_deployment,
        tail_deployment := tail_deployment,
        deployments := List.replicate args.parallel.toNat args }

/-- In-memory state of `K8sPod._K8sDeployment` after `__init__`
(k8s.py lines 17-38).  `head_zmq_identity` (`bytes`) is modelled as a
`String` since its only value in this mode is `b''`. -/
structure K8sDeploymentState where
  name : String
  dns_name : String
  head_port_in : Int
  tail_port_out : Int
  head_zmq_identity : String
  version : String
  shard_id : Option Int
  common_args : Args
  deployment_args : Args
  k8s_namespace : String
  num_replicas : Int
deriving DecidableEq, Inhabited

/-- `_K8sDeployment.__init__`.  `to_dns` is the external
`kubernetes_deployment.to_dns_name` collaborator (not under the
sources), passed in as a parameter; `self.k8s_namespace` comes from
`common_args.k8s_namespace` and `self.num_replicas` from
`getattr(common_args, 'replicas', 1)`. -/
def mk_K8sDeployment (to_dns : String → String) (name : String)
    (head_port_in tail_port_out : Int) (head_zmq_identity : String)
    (version : String) (shard_id : Option Int)
    (common_args deployment_args : Args) : K8sDeploymentState :=
  { name := name
    dns_name := to_dns name
    head_port_in := head_port_in
    tail_port_out := tail_port_out
    head_zmq_identity := head_zmq_identity
    version := version
    shard_id := shard_id
    common_args := common_args
    deployment_args := deployment_args
    k8s_namespace := common_args.k8s_namespace
    num_replicas := common_args.replicas }

/-- In-memory state of a `K8sPod` after `__init__` (k8s.py lines
166-222): the parsed deployment args materialized into an optional
head unit, an optional tail unit and the list of shard units. -/
structure K8sPodState where
  args : Args
  needs_count : Nat
  name : String
  version : String
  deployment_args : ParsedArgs
  k8s_head_deployment : Option K8sDeploymentState
  k8s_tail_deployment : Option K8sDeploymentState
  k8s_deployments : List K8sDeploymentState
deriving DecidableEq, Inhabited

/-- `K8sPod.__init__` (k8s.py lines 166-222).  `self.name` is the
Pod's base name (provided by the `BasePod` superclass, which is not
under the sources; modelled from the spec's "per-Pod name" taken from
the common arguments, i.e. `args.name`).  `version` stands for
`self._get_base_executor_version()`, an external registry query.
Fixed ports are 8081/8082 and `head_zmq_identity` is `b''`.  Note the
source passes `shard_id=None` for the head, the tail and **every**
shard deployment (lines 187, 199, 218). -/
def K8sPod_init (to_dns : String → String) (version : String)
    (args : Args) (needs_count : Nat) : Except K8sError K8sPodState :=
  match _parse_deployment_args needs_count args with
  | .error e => .error e
  | .ok dargs =>
    let name := args.name
    let head := dargs.head_deployment.map (fun d =>
      mk_K8sDeployment to_dns (name ++ "-head") 8081 8082 "" version
        none args d)
    let tail := dargs.tail_deployment.map (fun d =>
      mk_K8sDeployment to_dns (name ++ "-tail") 8081 8082 "" version
        none args d)
    let shards := (List.range dargs.deployments.length).zip
        dargs.deployments |>.map (fun p =>
      mk_K8sDeployment to_dns
        (if 1 < dargs.deployments.length then
          name ++ "-" ++ toString p.1
        else name)
        8081 8082 "" version none args p.2)
    .ok { args := args
          needs_count := needs_count
          name := name
          version := version
          deployment_args := dargs
          k8s_head_deployment := head
          k8s_tail_deployment := tail
          k8s_deployments := shards }

/-- Control-plane actions the orchestration core performs, as an event
alphabet for lifecycle traces. -/
inductive Event where
  | createNamespace (ns : String)
  | startUnit (name : String)
  | deleteUnit (name : String)
  | deleteNamespace (ns : String)
deriving DecidableEq

/-- The units a `K8sPod.start` enters, in creation order: head (if
any), then the shards in index order, then tail (if any) (k8s.py
lines 283-288). -/
def startedUnits (p : K8sPodState) : List K8sDeploymentState :=
  p.k8s_head_deployment.toList ++ p.k8s_deployments ++
    p.k8s_tail_deployment.toList

/-- Trace of `K8sPod.start` (k8s.py lines 268-289): create the
namespace, then `enter_context` each unit in the fixed order head →
shards → tail.  Each `enter_context` starts the unit and records it on
the exit stack. -/
def K8sPod_start_events (p : K8sPodState) : List Event :=
  Event.createNamespace p.args.k8s_namespace ::
    (startedUnits p).map (fun u => Event.startUnit u.name)

/-- The exit stack right after `K8sPod.start`: the entered units in
entry order. -/
def exitStack (p : K8sPodState) : List K8sDeploymentState :=
  startedUnits p

/-- Modelled from the spec: unwinding of the exit stack on close.  The
implementation (the `ExitFIFO`/`BasePod` superclasses of `K8sPod`) is
not under the sources; the spec states that close "unwinds the exit
stack — i.e., deletes tail (if any) → shards in reverse index order →
head (if any)", i.e. pops in reverse (LIFO) order of entry, and each
popped unit's `__exit__` calls its `close`, which deletes its
Deployment. -/
def unwindExitStack (stack : List K8sDeploymentState) : List Event :=
  stack.reverse.map (fun u => Event.deleteUnit u.name)

/-- Trace of `K8sPod` teardown (the context-manager exit / `close`):
unwind the exit stack recorded by `start`.  No namespace deletion is
performed anywhere in the core. -/
def K8sPod_close_events (p : K8sPodState) : List Event :=
  unwindExitStack (exitStack p)

/-- Python exceptions that can cross the orchestrator boundary. -/
inductive PyError where
  | valueError
  | controlPlaneError (msg : String)
deriving DecidableEq

/-- Outcome of `K8sPod.wait_start_success`: which units were waited on
(in order), which teardown events were performed, and the error
re-raised to the caller, if any. -/
structure WaitOutcome where
  waited : List String
  closed : List Event
  result : Option PyError
deriving DecidableEq

/-- Sequential per-unit waiting: walk the units in order, recording
each unit waited on; stop at the first unit whose readiness wait
raises (`res` gives each unit's simulated wait outcome by name). -/
def waitSeq (res : String → Option PyError) :
    List K8sDeploymentState → List String × Option PyError
  | [] => ([], none)
  | u :: rest =>
    match res u.name with
    | some e => ([u.name], some e)
    | none =>
      let w := waitSeq res rest
      (u.name :: w.1, w.2)

/-- `K8sPod.wait_start_success` (k8s.py lines 291-306): raises
`ValueError` unless `noblock_on_start` is set; otherwise waits on the
head, then every shard, then the tail, in that order, and on any
exception calls `self.close()` (full exit-stack unwind, from the
`BasePod` superclass, modelled from the spec as `K8sPod_close_events`)
before re-raising. -/
def K8sPod_wait_start_success (res : String → Option PyError)
    (p : K8sPodState) : WaitOutcome :=
  if p.args.noblock_on_start = false then
    { waited := [], closed := [], result := some .valueError }
  else
    let w := waitSeq res (startedUnits p)
    match w.2 with
    | none => { waited := w.1, closed := [], result := none }
    | some e =>
      { waited := w.1, closed := K8sPod_close_events p, result := some e }

/-- One `kubernetes_deployment.deploy_service` call, restricted to the
arguments the claims are about. -/
structure DeployCall where
  target_name : String
  ns : String
  image_name : String
  replicas : Int
  pull_policy : String
  port_expose : Option Int
deriving DecidableEq

/-- `_K8sDeployment._deploy_gateway` (k8s.py lines 40-53): deploys
under `self.name` with `replicas=1`, `pull_policy='Always'` and the
configured `port_expose`. -/
def K8sDeployment_deploy_gateway (u : K8sDeploymentState) : DeployCall :=
  { target_name := u.name
    ns := u.k8s_namespace
    image_name := "jinaai/jina:" ++ u.version ++ "-py38-standard"
    replicas := 1
    pull_policy := "Always"
    port_expose := some u.common_args.port_expose }

/-- `_K8sDeployment._deploy_runtime` (k8s.py lines 71-105): resolves
the image via the external `kubernetes_deployment.get_image_name`
(parameter `get_image_name`), substitutes the framework base image
when the resolved name is the default-executor sentinel, and deploys
under `self.dns_name` with `replicas=self.num_replicas` and
`pull_policy='IfNotPresent'`. -/
def K8sDeployment_deploy_runtime (get_image_name : String → String)
    (u : K8sDeploymentState) : DeployCall :=
  let image_name := get_image_name u.deployment_args.uses
  let image_name :=
    if image_name == default_executor then
      "jinaai/jina:" ++ u.version ++ "-py38-standard"
    else image_name
  { target_name := u.dns_name
    ns := u.k8s_namespace
    image_name := image_name
    replicas := u.num_replicas
    pull_policy := "IfNotPresent"
    port_expose := none }

/-- The single `deploy_service` call issued by `_K8sDeployment.start`
(k8s.py lines 124-131): the gateway deployment when `self.name ==
'gateway'`, the runtime deployment otherwise. -/
def K8sDeployment_start_deploy (get_image_name : String → String)
    (u : K8sDeploymentState) : DeployCall :=
  if u.name == "gateway" then K8sDeployment_deploy_gateway u
  else K8sDeployment_deploy_runtime get_image_name u

/-- The `delete_namespaced_deployment` call issued by
`_K8sDeployment.close` (k8s.py lines 137-139): it targets `self.name`
(the raw name) in `self.k8s_namespace`. -/
structure DeleteCall where
  name : String
  ns : String
deriving DecidableEq

def K8sDeployment_close_delete_call (u : K8sDeploymentState) : DeleteCall :=
  { name := u.name, ns := u.k8s_namespace }

/-- Behaviour of the control-plane delete call inside
`_K8sDeployment.close`: a response with status `'Success'`, a response
with some other status, or a raised exception. -/
inductive DeleteOutcome where
  | success
  | failureStatus (s : String)
  | raised (e : String)
deriving DecidableEq

/-- A log entry: `true` for a success log, `false` for an error log. -/
structure LogEntry where
  ok : Bool
  msg : String
deriving DecidableEq

/-- `_K8sDeployment.close` (k8s.py lines 133-149): tries the delete
call, logs success when the response status is `'Success'`, logs an
error on any other status, and catches every raised exception, logging
it.  The body re-raises nothing, so the embedding always returns
`.ok` with the log entries written. -/
def K8sDeployment_close (u : K8sDeploymentState)
    (outcome : DeleteOutcome) : Except PyError (List LogEntry) :=
  .ok (match outcome with
    | .success =>
      [{ ok := true
         msg := " Successful deletion of deployment " ++ u.name }]
    | .failureStatus s =>
      [{ ok := false
         msg := " Deletion of deployment " ++ u.name ++
           " unsuccessful with status " ++ s }]
    | .raised e =>
      [{ ok := false
         msg := " Error deleting deployment " ++ u.name ++ ": " ++ e }])

/-- One entry of `client.list_namespaced_pod(...).items`, restricted
to the fields `_K8sDeployment.wait_start_success` reads: the `'app'`
label, the phase and the pod IP. -/
structure PodInfo where
  app_label : String
  phase : String
  pod_ip : String
deriving DecidableEq

/-- The filter of the readiness poll (k8s.py lines 115-118): the pod's
`'app'` label equals the unit's (raw) name and its phase is
`'Running'`. -/
def podMatches (name : String) (pod : PodInfo) : Bool :=
  pod.app_label == name && pod.phase == "Running"

/-- `pod_ips.add(ip)`: the `set` of pod IPs as a duplicate-free list
in insertion order. -/
def addIp (ips : List String) (ip : String) : List String :=
  if ip ∈ ips then ips else ips ++ [ip]

/-- The inner `for` loop of `_K8sDeployment.wait_start_success`
(k8s.py lines 111-121) over one poll's pod list: add each matching
pod's IP to the set and return (`true`) as soon as the set's size
equals `num_replicas`; otherwise hand the grown set to the next
iteration (`false`). -/
def processPoll (name : String) (num_replicas : Int) :
    List PodInfo → List String → List String × Bool
  | [], ips => (ips, false)
  | pod :: rest, ips =>
    if podMatches name pod then
      let ips2 := addIp ips pod.pod_ip
      if (ips2.length : Int) = num_replicas then (ips2, true)
      else processPoll name num_replicas rest ips2
    else processPoll name num_replicas rest ips

/-- The outer `while True` loop of `wait_start_success` (k8s.py lines
110-122), run against a finite schedule of poll results (`polls.get i`
is what `list_namespaced_pod` returns on the `i`-th iteration).  The
IP set is created once before the loop and is carried across
iterations.  Returns `some i` when the method returns during poll `i`
(0-based), `none` when the schedule is exhausted with the method still
looping. -/
def waitLoop (name : String) (num_replicas : Int) :
    List (List PodInfo) → List String → Option Nat
  | [], _ => none
  | poll :: rest, ips =>
    match processPoll name num_replicas poll ips with
    | (_, true) => some 0
    | (ips2, false) =>
      (waitLoop name num_replicas rest ips2).map (· + 1)

/-- `_K8sDeployment.wait_start_success` against a finite poll
schedule, started (as in the source) with an empty IP set. -/
def wait_start_success_sim (name : String) (num_replicas : Int)
    (polls : List (List PodInfo)) : Option Nat :=
  waitLoop name num_replicas polls []

/-- The IP set after folding one whole poll's pod list (no early
return): the reference value the loop's set converges to. -/
def pollFold (name : String) (poll : List PodInfo)
    (ips : List String) : List String :=
  poll.foldl (fun a p => if podMatches name p then addIp a p.pod_ip else a)
    ips

/-- The IP set accumulated across a schedule of polls. -/
def cumIps (name : String) (polls : List (List PodInfo))
    (ips : List String) : List String :=
  polls.foldl (fun a poll => pollFold name poll a) ips

/-- Distinct IPs of matching `Running` pods seen anywhere in the
schedule, in encounter order. -/
def runningIps (name : String) (polls : List (List PodInfo)) :
    List String :=
  cumIps name polls []

/-- Number of distinct `Running` matching IPs visible within a single
poll result, taken on its own (used to express "no single poll ever
reports that many simultaneously running pods"). -/
def singlePollRunningCount (name : String) (poll : List PodInfo) : Nat :=
  (pollFold name poll []).length

/-- `wait_start_success` as invoked on a unit: the poll filter uses
the unit's raw `name` and the target count is the unit's
`num_replicas` (k8s.py lines 116, 120). -/
def K8sDeployment_wait_sim (u : K8sDeploymentState)
    (polls : List (List PodInfo)) : Option Nat :=
  wait_start_success_sim u.name u.num_replicas polls

/-- C6: for every unit and every behaviour of the control-plane delete
call (success, failure status, or raised exception),
`_K8sDeployment.close` returns normally and never raises; any
non-success outcome is only logged (all written log entries are error
entries, nothing is escalated). -/
theorem C6_close_never_raises (u : K8sDeploymentState)
    (o : DeleteOutcome) :
    (K8sDeployment_close u o).isOk = true ∧
    (o ≠ DeleteOutcome.success →
      ∃ logs, K8sDeployment_close u o = Except.ok logs ∧
        ∀ l ∈ logs, l.ok = false) := by
  refine ⟨rfl, fun hne => ?_⟩
  cases o with
  | success => exact absurd rfl hne
  | failureStatus s => exact ⟨_, rfl, by simp [K8sDeployment_close]⟩
  | raised e => exact ⟨_, rfl, by simp [K8sDeployment_close]⟩

theorem C6_close_never_raises_witness :
    (K8sDeployment_close default (DeleteOutcome.raised "boom")).isOk = true ∧
    ∃ logs,
      K8sDeployment_close default (DeleteOutcome.raised "boom") =
        Except.ok logs ∧ ∀ l ∈ logs, l.ok = false :=
  ⟨(C6_close_never_raises default (DeleteOutcome.raised "boom")).1,
    (C6_close_never_raises default (DeleteOutcome.raised "boom")).2
      (by decide)⟩

/-- C8: a unit named `'gateway'` is deployed by `start` with replica
count 1 and pull policy `'Always'`, regardless of the configured
replica count; every other unit is deployed with its configured
replica count and pull policy `'IfNotPresent'`. -/
theorem C8_gateway_special_case (get_image_name : String → String)
    (u : K8sDeploymentState) :
    (K8sDeployment_start_deploy get_image_name u).replicas =
      (if u.name = "gateway" then 1 else u.num_replicas) ∧
    (K8sDeployment_start_deploy get_image_name u).pull_policy =
      (if u.name = "gateway" then "Always" else "IfNotPresent") := by
  by_cases h : u.name = "gateway" <;>
    simp [K8sDeployment_start_deploy, K8sDeployment_deploy_gateway,
      K8sDeployment_deploy_runtime, h]

/-- C10: for a runtime (non-gateway) unit constructed with a DNS-name
derivation `to_dns`, `start` deploys under the derived `dns_name =
to_dns name`, while `close` deletes under the raw `name` and the
readiness poll filters pods by the raw `name`; hence the delete call
targets the name the deploy created only when the raw name already
equals its DNS-safe form. -/
theorem C10_dns_name_mismatch (to_dns get_image_name : String → String)
    (name : String) (hpi tpo : Int) (zmq version : String)
    (sid : Option Int) (ca da : Args) (hng : name ≠ "gateway") :
    (K8sDeployment_start_deploy get_image_name
      (mk_K8sDeployment to_dns name hpi tpo zmq version sid ca da)).target_name
        = to_dns name ∧
    (K8sDeployment_close_delete_call
      (mk_K8sDeployment to_dns name hpi tpo zmq version sid ca da)).name
        = name ∧
    (∀ polls,
      K8sDeployment_wait_sim
        (mk_K8sDeployment to_dns name hpi tpo zmq version sid ca da) polls
        = wait_start_success_sim name ca.replicas polls) ∧
    ((K8sDeployment_close_delete_call
        (mk_K8sDeployment to_dns name hpi tpo zmq version sid ca da)).name =
      (K8sDeployment_start_deploy get_image_name
        (mk_K8sDeployment to_dns name hpi tpo zmq version sid ca da)).target_name
      ↔ name = to_dns name) := by
  have hng' : (name == "gateway") = false := by
    simpa using hng
  refine ⟨?_, rfl, fun _ => rfl, ?_⟩
  · simp [K8sDeployment_start_deploy, mk_K8sDeployment, hng',
      K8sDeployment_deploy_runtime]
  · simp [K8sDeployment_start_deploy, mk_K8sDeployment, hng',
      K8sDeployment_deploy_runtime, K8sDeployment_close_delete_call]

theorem C10_dns_name_mismatch_witness :
    (K8sDeployment_start_deploy (fun s => s)
      (mk_K8sDeployment (fun s => s ++ "-dns") "u1" 8081 8082 "" "v"
        none default default)).target_name = "u1-dns" ∧
    (K8sDeployment_close_delete_call
      (mk_K8sDeployment (fun s => s ++ "-dns") "u1" 8081 8082 "" "v"
        none default default)).name = "u1" :=
  ⟨(C10_dns_name_mismatch (fun s => s ++ "-dns") (fun s => s) "u1"
      8081 8082 "" "v" none default default (by decide)).1,
    (C10_dns_name_mismatch (fun s => s ++ "-dns") (fun s => s) "u1"
      8081 8082 "" "v" none default default (by decide)).2.1⟩

/-- An argument set with `parallel = 0` (i.e. `shard_count < 1`). -/
def args_par0 : Args := { name := "z", parallel := 0 }

/-- C4 counterexample: an argument set with `shard_count = 0 < 1` for
which topology construction does **not** fail with
`InvalidTopologyArgs` — `_parse_deployment_args` contains no
validation and returns normally. -/
theorem C4_counterexample :
    args_par0.parallel < 1 ∧
    ¬ _parse_deployment_args 0 args_par0 =
        Except.error K8sError.invalidTopologyArgs ∧
    (_parse_deployment_args 0 args_par0).isOk = true := by
  decide

/-- C4 amended: topology construction never validates the shard or
replica counts: `_parse_deployment_args` returns normally on every
argument set, and with `shard_count < 1` it silently produces an
empty shard list. -/
theorem C4_amended_no_validation (needs_count : Nat) (a : Args) :
    (_parse_deployment_args needs_count a).isOk = true ∧
    (∀ pa, _parse_deployment_args needs_count a = .ok pa →
      a.parallel < 1 → pa.deployments = []) := by
  refine ⟨rfl, fun pa hpa hlt => ?_⟩
  have : pa.deployments = List.replicate a.parallel.toNat a := by
    simp only [_parse_deployment_args, Except.ok.injEq] at hpa
    rw [← hpa]
  rw [this]
  have hz : a.parallel.toNat = 0 := by omega
  rw [hz]
  rfl

/-- What `_parse_deployment_args` returns on `args_par0`. -/
def parsed_par0 : ParsedArgs :=
  { head_deployment := none, tail_deployment := none, deployments := [] }

theorem C4_amended_no_validation_witness :
    (_parse_deployment_args 0 args_par0).isOk = true ∧
    parsed_par0.deployments = [] :=
  ⟨(C4_amended_no_validation 0 args_par0).1,
    (C4_amended_no_validation 0 args_par0).2 parsed_par0 (by decide)
      (by decide)⟩

/-- Concrete two-shard argument set for C3. -/
def args_two_shards : Args := { name := "q", parallel := 2 }

/-- The `K8sPod` constructed from `args_two_shards`. -/
def pod_two_shards : K8sPodState :=
  ((K8sPod_init (fun s => s) "master" args_two_shards 0).toOption).getD
    default

/-- The distinct-shard-index property the claim asserts: the `i`-th
shard unit carries shard index `i`. -/
def shardsCarryDistinctIndices (p : K8sPodState) : Prop :=
  ∀ i : Fin p.k8s_deployments.length,
    (p.k8s_deployments.get i).shard_id = some ((i : Nat) : Int)

/-- C3 counterexample: in a pod with two shards the constructor passes
`shard_id=None` to every shard unit (k8s.py line 218), so no shard
carries a distinct index. -/
theorem C3_counterexample :
    K8sPod_init (fun s => s) "master" args_two_shards 0 =
      Except.ok pod_two_shards ∧
    pod_two_shards.k8s_deployments.length = 2 ∧
    pod_two_shards.k8s_deployments.map (fun u => u.shard_id) =
      [none, none] ∧
    ¬ shardsCarryDistinctIndices pod_two_shards := by
  refine ⟨by decide, by decide, by decide, fun h => ?_⟩
  have := h ⟨1, by decide⟩
  simp only [shardsCarryDistinctIndices] at this
  revert this
  decide

/-- C3 amended: the shard units constructed in `__init__` share fully
identical arguments — including `shard_id`, which is `None` for every
shard (no distinct indices are assigned) — and differ only in their
name; the names are the Pod's base name when `shard_count == 1` and
`<base>-<index>` when `shard_count > 1`. -/
theorem C3_amended_shards_identical (to_dns : String → String)
    (version : String) (a : Args) (needs_count : Nat) (p : K8sPodState)
    (hp : K8sPod_init to_dns version a needs_count = .ok p) :
    (∀ u ∈ p.k8s_deployments,
      u = mk_K8sDeployment to_dns u.name 8081 8082 "" version none a a) ∧
    p.k8s_deployments.map (fun u => u.name) =
      (List.range a.parallel.toNat).map (fun i =>
        if 1 < a.parallel.toNat then a.name ++ "-" ++ toString i
        else a.name) := by
  have hshards : p.k8s_deployments =
      ((List.range a.parallel.toNat).zip
        (List.replicate a.parallel.toNat a)).map (fun q =>
      mk_K8sDeployment to_dns
        (if 1 < a.parallel.toNat then a.name ++ "-" ++ toString q.1
         else a.name)
        8081 8082 "" version none a q.2) := by
    simp only [K8sPod_init, _parse_deployment_args,
      Except.ok.injEq] at hp
    rw [← hp]
    simp
  constructor
  · intro u hu
    rw [hshards] at hu
    rcases List.mem_map.mp hu with ⟨q, hq, hqu⟩
    have hq2 : q.2 = a := List.eq_of_mem_replicate (List.of_mem_zip hq).2
    rw [← hqu]
    rw [hq2]
    rfl
  · rw [hshards]
    apply List.ext_getElem (by simp)
    intro i h1 h2
    simp only [List.getElem_map, List.getElem_zip, List.getElem_range,
      List.getElem_replicate]
    rfl

theorem C3_amended_shards_identical_witness :
    (∀ u ∈ pod_two_shards.k8s_deployments,
      u = mk_K8sDeployment (fun s => s) u.name 8081 8082 "" "master"
        none args_two_shards args_two_shards) ∧
    pod_two_shards.k8s_deployments.map (fun u => u.name) =
      ["q-0", "q-1"] := by
  have h := C3_amended_shards_identical (fun s => s) "master"
    args_two_shards 0 pod_two_shards (by decide)
  exact ⟨h.1, h.2.trans (by decide)⟩

/-- C1: for every pod whose topology contains a head, shard units and
a tail, `start` enters the head, then the shards in index order, then
the tail (after creating the namespace), and the context-manager exit
deletes the units in exactly the reverse of creation order — tail
first, then shards in reverse index order, then head last — and never
deletes the namespace.  (The exit-stack unwinding itself is modelled
from the spec, see `unwindExitStack`.) -/
theorem C1_teardown_reverse_order (p : K8sPodState)
    (hd tl : K8sDeploymentState)
    (hh : p.k8s_head_deployment = some hd)
    (ht : p.k8s_tail_deployment = some tl)
    (hs : p.k8s_deployments ≠ []) :
    K8sPod_start_events p =
      Event.createNamespace p.args.k8s_namespace ::
        Event.startUnit hd.name ::
          (p.k8s_deployments.map (fun u => Event.startUnit u.name) ++
            [Event.startUnit tl.name]) ∧
    K8sPod_close_events p =
      Event.deleteUnit tl.name ::
        (p.k8s_deployments.reverse.map (fun u => Event.deleteUnit u.name) ++
          [Event.deleteUnit hd.name]) ∧
    (∀ ns, Event.deleteNamespace ns ∉ K8sPod_close_events p) := by
  have hsu : startedUnits p = hd :: (p.k8s_deployments ++ [tl]) := by
    simp [startedUnits, hh, ht]
  refine ⟨?_, ?_, ?_⟩
  · simp [K8sPod_start_events, hsu]
  · simp [K8sPod_close_events, exitStack, unwindExitStack, hsu]
  · intro ns hmem
    simp only [K8sPod_close_events, exitStack, unwindExitStack,
      List.mem_map] at hmem
    rcases hmem with ⟨u, _, hu⟩
    exact absurd hu (by simp)

/-- Topology with a head, three shards and a tail, ready for deferred
waiting (`noblock_on_start` set). -/
def args_full : Args :=
  { name := "p", parallel := 3, uses_before := some "pre",
    uses_after := some "merger", k8s_namespace := "nsp",
    noblock_on_start := true }

def pod_full : K8sPodState :=
  ((K8sPod_init (fun s => s) "master" args_full 0).toOption).getD default

def head_full : K8sDeploymentState :=
  pod_full.k8s_head_deployment.getD default

def tail_full : K8sDeploymentState :=
  pod_full.k8s_tail_deployment.getD default

theorem C1_teardown_reverse_order_witness :
    K8sPod_close_events pod_full =
      [Event.deleteUnit "p-tail", Event.deleteUnit "p-2",
       Event.deleteUnit "p-1", Event.deleteUnit "p-0",
       Event.deleteUnit "p-head"] :=
  ((C1_teardown_reverse_order pod_full head_full tail_full (by decide)
      (by decide) (by decide)).2.1).trans (by decide)

/-- C2: for every argument set with `shard_count ≥ 1`,
`_parse_deployment_args` produces exactly `shard_count` shard
deployment args; a head deployment iff `shard_count > 1`, or
`upstream_fanin_count > 1` and `replica_count > 1`, or
`pre_processing_image` (`uses_before`) is set (truthy); a tail
deployment iff `shard_count > 1` or `post_processing_image`
(`uses_after`) is set; and the head's effective image (`uses`) is
`uses_before` when set, else the default pass-through executor —
symmetrically for the tail with `uses_after`. -/
theorem C2_topology_builder (needs_count : Nat) (a : Args)
    (h1 : 1 ≤ a.parallel) (pa : ParsedArgs)
    (hpa : _parse_deployment_args needs_count a = .ok pa) :
    (pa.deployments.length : Int) = a.parallel ∧
    (pa.head_deployment.isSome = true ↔
      (1 < a.parallel ∨ (1 < needs_count ∧ 1 < a.replicas) ∨
        pyTruthy a.uses_before = true)) ∧
    (pa.tail_deployment.isSome = true ↔
      (1 < a.parallel ∨ pyTruthy a.uses_after = true)) ∧
    (∀ d, pa.head_deployment = some d →
      d.uses = (if pyTruthy a.uses_before = true then
        a.uses_before.getD "" else default_executor)) ∧
    (∀ d, pa.tail_deployment = some d →
      d.uses = (if pyTruthy a.uses_after = true then
        a.uses_after.getD "" else default_executor)) := by
  have hpyOr : ∀ (x : Option String),
      pyOr x default_executor =
        (if pyTruthy x = true then x.getD "" else default_executor) := by
    intro x
    cases x with
    | none => rfl
    | some s =>
      by_cases hs : s = ""
      · simp [pyOr, pyTruthy, hs]
      · simp [pyOr, pyTruthy, hs]
  simp only [_parse_deployment_args, Except.ok.injEq] at hpa
  subst hpa
  refine ⟨?_, ?_, ?_, ?_, ?_⟩
  · simp only [List.length_replicate]
    omega
  · by_cases hc : 1 < a.parallel ∨ (1 < needs_count ∧ 1 < a.replicas) ∨
        pyTruthy a.uses_before = true
    · simp [hc]
    · simp [hc]
  · by_cases hc : 1 < a.parallel ∨ pyTruthy a.uses_after = true
    · simp [hc]
    · simp [hc]
  · intro d hd
    by_cases hc : 1 < a.parallel ∨ (1 < needs_count ∧ 1 < a.replicas) ∨
        pyTruthy a.uses_before = true
    · simp only [hc, if_pos, Option.some.injEq] at hd
      rw [← hd]
      exact hpyOr a.uses_before
    · simp [hc] at hd
  · intro d hd
    by_cases hc : 1 < a.parallel ∨ pyTruthy a.uses_after = true
    · simp only [hc, if_pos, Option.some.injEq] at hd
      rw [← hd]
      exact hpyOr a.uses_after
    · simp [hc] at hd

/-- What `_parse_deployment_args` returns on `args_full`. -/
def parsed_full : ParsedArgs :=
  ((_parse_deployment_args 0 args_full).toOption).getD default

theorem C2_topology_builder_witness :
    (parsed_full.deployments.length : Int) = args_full.parallel ∧
    parsed_full.head_deployment.isSome = true ∧
    parsed_full.tail_deployment.isSome = true ∧
    (∀ d, parsed_full.head_deployment = some d → d.uses = "pre") := by
  have h := C2_topology_builder 0 args_full (by decide) parsed_full
    (by decide)
  refine ⟨h.1, h.2.1.mpr (by decide), h.2.2.1.mpr (by decide),
    fun d hd => (h.2.2.2.1 d hd).trans (by decide)⟩

/-- When no unit's wait raises, every unit is waited on, in order. -/
theorem waitSeq_none_eq (res : String → Option PyError) :
    ∀ us, (waitSeq res us).2 = none →
      (waitSeq res us).1 = us.map (fun u => u.name) := by
  intro us
  induction us with
  | nil => intro _; rfl
  | cons u rest ih =>
    intro h
    cases hr : res u.name with
    | some e => simp [waitSeq, hr] at h
    | none =>
      simp only [waitSeq, hr] at h ⊢
      simp [ih h]

/-- The waited-on units always form an initial segment of the full
head → shards → tail order. -/
theorem waitSeq_is_initial_segment (res : String → Option PyError) :
    ∀ us, (waitSeq res us).1 =
      (us.map (fun u => u.name)).take (waitSeq res us).1.length := by
  intro us
  induction us with
  | nil => rfl
  | cons u rest ih =>
    cases hr : res u.name with
    | some e => simp [waitSeq, hr]
    | none =>
      simp only [waitSeq, hr, List.map_cons, List.length_cons,
        List.take_succ_cons, List.cons.injEq, true_and]
      exact ih

/-- A raised result comes from the last unit waited on. -/
theorem waitSeq_some_last (res : String → Option PyError) :
    ∀ us e, (waitSeq res us).2 = some e →
      ∃ nm, (waitSeq res us).1.getLast? = some nm ∧ res nm = some e := by
  intro us
  induction us with
  | nil => intro e h; simp [waitSeq] at h
  | cons u rest ih =>
    intro e h
    cases hr : res u.name with
    | some e' =>
      simp only [waitSeq, hr, Option.some.injEq] at h ⊢
      exact ⟨u.name, rfl, by rw [hr, h]⟩
    | none =>
      simp only [waitSeq, hr] at h ⊢
      rcases ih e h with ⟨nm, hlast, hres⟩
      refine ⟨nm, ?_, hres⟩
      cases hw : (waitSeq res rest).1 with
      | nil => rw [hw] at hlast; simp at hlast
      | cons b l => rw [hw] at hlast; rw [List.getLast?_cons_cons, hlast]

/-- C5: in deferred mode (`noblock_on_start` true),
`K8sPod.wait_start_success` waits over the head, then all shards,
then the tail, in that order; when every wait succeeds nothing is torn
down, and when any per-unit wait raises, the orchestrator performs its
full `close()` (tearing down every unit recorded on the exit stack)
before re-raising the original error to the caller. -/
theorem C5_failure_triggers_full_close (res : String → Option PyError)
    (p : K8sPodState) (hnb : p.args.noblock_on_start = true) :
    ((K8sPod_wait_start_success res p).result = none →
      (K8sPod_wait_start_success res p).waited =
        (startedUnits p).map (fun u => u.name) ∧
      (K8sPod_wait_start_success res p).closed = []) ∧
    (∀ e, (K8sPod_wait_start_success res p).result = some e →
      (K8sPod_wait_start_success res p).closed = K8sPod_close_events p ∧
      (K8sPod_wait_start_success res p).waited =
        ((startedUnits p).map (fun u => u.name)).take
          (K8sPod_wait_start_success res p).waited.length ∧
      ∃ nm, (K8sPod_wait_start_success res p).waited.getLast? = some nm ∧
        res nm = some e) := by
  have hcond : ¬ (p.args.noblock_on_start = false) := by rw [hnb]; simp
  cases hw : (waitSeq res (startedUnits p)).2 with
  | none =>
    have hout : K8sPod_wait_start_success res p =
        { waited := (waitSeq res (startedUnits p)).1, closed := [],
          result := none } := by
      simp only [K8sPod_wait_start_success, if_neg hcond]
      rw [hw]
    rw [hout]
    refine ⟨fun _ => ⟨waitSeq_none_eq res _ hw, rfl⟩, fun e he => ?_⟩
    simp at he
  | some e0 =>
    have hout : K8sPod_wait_start_success res p =
        { waited := (waitSeq res (startedUnits p)).1,
          closed := K8sPod_close_events p, result := some e0 } := by
      simp only [K8sPod_wait_start_success, if_neg hcond]
      rw [hw]
    rw [hout]
    refine ⟨fun hc => by simp at hc, fun e he => ?_⟩
    simp only [Option.some.injEq] at he
    subst he
    exact ⟨rfl, waitSeq_is_initial_segment res _,
      waitSeq_some_last res _ e0 hw⟩

/-- Simulated readiness results where the second shard fails. -/
def res_fail_p1 : String → Option PyError := fun nm =>
  if nm == "p-1" then some (PyError.controlPlaneError "boom") else none

theorem C5_failure_triggers_full_close_witness :
    (K8sPod_wait_start_success res_fail_p1 pod_full).closed =
      K8sPod_close_events pod_full ∧
    (K8sPod_wait_start_success res_fail_p1 pod_full).result =
      some (PyError.controlPlaneError "boom") ∧
    (K8sPod_wait_start_success res_fail_p1 pod_full).waited =
      ["p-head", "p-0", "p-1"] :=
  ⟨((C5_failure_triggers_full_close res_fail_p1 pod_full (by decide)).2
      (PyError.controlPlaneError "boom") (by decide)).1,
    by decide, by decide⟩

theorem addIp_length_le (ips : List String) (ip : String) :
    (addIp ips ip).length ≤ ips.length + 1 := by
  unfold addIp; split <;> simp

theorem length_le_addIp (ips : List String) (ip : String) :
    ips.length ≤ (addIp ips ip).length := by
  unfold addIp; split <;> simp

theorem mem_addIp (ips : List String) (ip x : String) (h : x ∈ ips) :
    x ∈ addIp ips ip := by
  unfold addIp; split
  · exact h
  · simp [h]

theorem pollFold_nil (name : String) (ips : List String) :
    pollFold name [] ips = ips := rfl

theorem pollFold_cons (name : String) (pod : PodInfo)
    (rest : List PodInfo) (ips : List String) :
    pollFold name (pod :: rest) ips =
      pollFold name rest
        (if podMatches name pod then addIp ips pod.pod_ip else ips) := rfl

theorem length_le_pollFold (name : String) :
    ∀ (poll : List PodInfo) (ips : List String),
      ips.length ≤ (pollFold name poll ips).length := by
  intro poll
  induction poll with
  | nil => intro ips; exact le_refl _
  | cons pod rest ih =>
    intro ips
    rw [pollFold_cons]
    refine le_trans ?_ (ih _)
    split
    · exact length_le_addIp _ _
    · exact le_refl _

theorem mem_pollFold (name : String) :
    ∀ (poll : List PodInfo) (ips : List String) (x : String),
      x ∈ ips → x ∈ pollFold name poll ips := by
  intro poll
  induction poll with
  | nil => intro ips x h; exact h
  | cons pod rest ih =>
    intro ips x h
    rw [pollFold_cons]
    refine ih _ _ ?_
    split
    · exact mem_addIp _ _ _ h
    · exact h

theorem cumIps_nil (name : String) (ips : List String) :
    cumIps name [] ips = ips := rfl

theorem cumIps_cons (name : String) (poll : List PodInfo)
    (rest : List (List PodInfo)) (ips : List String) :
    cumIps name (poll :: rest) ips =
      cumIps name rest (pollFold name poll ips) := rfl

theorem length_le_cumIps (name : String) :
    ∀ (polls : List (List PodInfo)) (ips : List String),
      ips.length ≤ (cumIps name polls ips).length := by
  intro polls
  induction polls with
  | nil => intro ips; exact le_refl _
  | cons poll rest ih =>
    intro ips
    rw [cumIps_cons]
    exact le_trans (length_le_pollFold name poll ips) (ih _)

theorem mem_cumIps (name : String) :
    ∀ (polls : List (List PodInfo)) (ips : List String) (x : String),
      x ∈ ips → x ∈ cumIps name polls ips := by
  intro polls
  induction polls with
  | nil => intro ips x h; exact h
  | cons poll rest ih =>
    intro ips x h
    rw [cumIps_cons]
    exact ih _ _ (mem_pollFold name poll ips x h)

theorem processPoll_cons_neg (name : String) (r : Int) (pod : PodInfo)
    (rest : List PodInfo) (ips : List String)
    (hm : podMatches name pod = false) :
    processPoll name r (pod :: rest) ips = processPoll name r rest ips := by
  simp [processPoll, hm]

theorem processPoll_cons_ret (name : String) (r : Int) (pod : PodInfo)
    (rest : List PodInfo) (ips : List String)
    (hm : podMatches name pod = true)
    (hc : ((addIp ips pod.pod_ip).length : Int) = r) :
    processPoll name r (pod :: rest) ips = (addIp ips pod.pod_ip, true) := by
  simp [processPoll, hm, hc]

theorem processPoll_cons_pos (name : String) (r : Int) (pod : PodInfo)
    (rest : List PodInfo) (ips : List String)
    (hm : podMatches name pod = true)
    (hc : ¬ ((addIp ips pod.pod_ip).length : Int) = r) :
    processPoll name r (pod :: rest) ips =
      processPoll name r rest (addIp ips pod.pod_ip) := by
  simp [processPoll, hm, hc]

/-- If the inner loop did not return, its final set is the full fold
of the poll. -/
theorem processPoll_snd_false (name : String) (r : Int) :
    ∀ (poll : List PodInfo) (ips : List String),
      (processPoll name r poll ips).2 = false →
      (processPoll name r poll ips).1 = pollFold name poll ips := by
  intro poll
  induction poll with
  | nil => intro ips _; rfl
  | cons pod rest ih =>
    intro ips h
    cases hm : podMatches name pod with
    | false =>
      rw [processPoll_cons_neg name r pod rest ips hm] at h ⊢
      rw [pollFold_cons, if_neg (by simp [hm])]
      exact ih ips h
    | true =>
      by_cases hc : ((addIp ips pod.pod_ip).length : Int) = r
      · rw [processPoll_cons_ret name r pod rest ips hm hc] at h
        simp at h
      · rw [processPoll_cons_pos name r pod rest ips hm hc] at h ⊢
        rw [pollFold_cons, if_pos (by simp [hm])]
        exact ih _ h

/-- Starting strictly below the target, the inner loop returns during
this poll exactly when the full fold of the poll reaches the target
count. -/
theorem processPoll_snd_true_iff (name : String) (r : Int) :
    ∀ (poll : List PodInfo) (ips : List String),
      ((ips.length : Int) < r) →
      ((processPoll name r poll ips).2 = true ↔
        r ≤ ((pollFold name poll ips).length : Int)) := by
  intro poll
  induction poll with
  | nil =>
    intro ips h
    simp only [processPoll, pollFold_nil]
    constructor
    · intro hc; simp at hc
    · intro hc; omega
  | cons pod rest ih =>
    intro ips h
    cases hm : podMatches name pod with
    | false =>
      rw [processPoll_cons_neg name r pod rest ips hm,
        pollFold_cons, if_neg (by simp [hm])]
      exact ih ips h
    | true =>
      by_cases hc : ((addIp ips pod.pod_ip).length : Int) = r
      · rw [processPoll_cons_ret name r pod rest ips hm hc,
          pollFold_cons, if_pos (by simp [hm])]
        have hmono := length_le_pollFold name rest (addIp ips pod.pod_ip)
        constructor
        · intro _; omega
        · intro _; rfl
      · rw [processPoll_cons_pos name r pod rest ips hm hc,
          pollFold_cons, if_pos (by simp [hm])]
        have hle := addIp_length_le ips pod.pod_ip
        exact ih _ (by omega)

theorem waitLoop_nil (name : String) (r : Int) (ips : List String) :
    waitLoop name r [] ips = none := rfl

theorem waitLoop_cons_ret (name : String) (r : Int)
    (poll : List PodInfo) (rest : List (List PodInfo)) (ips : List String)
    (h : (processPoll name r poll ips).2 = true) :
    waitLoop name r (poll :: rest) ips = some 0 := by
  simp only [waitLoop]
  rcases hpp : processPoll name r poll ips with ⟨x, b⟩
  rw [hpp] at h
  simp only at h
  subst h
  rfl

theorem waitLoop_cons_go (name : String) (r : Int)
    (poll : List PodInfo) (rest : List (List PodInfo)) (ips : List String)
    (h : (processPoll name r poll ips).2 = false) :
    waitLoop name r (poll :: rest) ips =
      (waitLoop name r rest (processPoll name r poll ips).1).map (· + 1) := by
  simp only [waitLoop]
  rcases hpp : processPoll name r poll ips with ⟨x, b⟩
  rw [hpp] at h
  simp only at h
  subst h
  rfl

/-- Full characterization of the outer loop: starting strictly below
the target, the loop returns during poll `i` exactly when poll `i` is
the first poll after which the accumulated distinct-IP count reaches
the target. -/
theorem waitLoop_eq_some_iff (name : String) (r : Int) :
    ∀ (polls : List (List PodInfo)) (ips : List String) (i : Nat),
      ((ips.length : Int) < r) →
      (waitLoop name r polls ips = some i ↔
        (i < polls.length ∧
         r ≤ ((cumIps name (polls.take (i + 1)) ips).length : Int) ∧
         ((cumIps name (polls.take i) ips).length : Int) < r)) := by
  intro polls
  induction polls with
  | nil =>
    intro ips i h
    rw [waitLoop_nil]
    simp
  | cons poll rest ih =>
    intro ips i h
    cases hb : (processPoll name r poll ips).2 with
    | true =>
      rw [waitLoop_cons_ret name r poll rest ips hb]
      have hful : r ≤ ((pollFold name poll ips).length : Int) :=
        (processPoll_snd_true_iff name r poll ips h).mp hb
      cases i with
      | zero =>
        simp only [List.take_succ_cons, List.take_zero, cumIps_cons,
          cumIps_nil, List.length_cons]
        constructor
        · intro _
          exact ⟨Nat.succ_pos _, hful, h⟩
        · intro _; trivial
      | succ j =>
        simp only [List.take_succ_cons, cumIps_cons]
        constructor
        · intro hc; simp at hc
        · intro hc
          exfalso
          have hmono := length_le_cumIps name (rest.take j)
            (pollFold name poll ips)
          omega
    | false =>
      have hips2 : (processPoll name r poll ips).1 =
          pollFold name poll ips := processPoll_snd_false name r poll ips hb
      have hlt : ((pollFold name poll ips).length : Int) < r := by
        have := processPoll_snd_true_iff name r poll ips h
        rw [hb] at this
        have h2 : ¬ (r ≤ ((pollFold name poll ips).length : Int)) := by
          intro hle
          exact absurd (this.mpr hle) (by simp)
        omega
      rw [waitLoop_cons_go name r poll rest ips hb, hips2]
      cases i with
      | zero =>
        simp only [List.take_succ_cons, List.take_zero, cumIps_cons,
          cumIps_nil]
        constructor
        · intro hc
          rcases Option.map_eq_some'.mp hc with ⟨a, _, ha⟩
          omega
        · intro hc
          exfalso
          omega
      | succ j =>
        have hstep : waitLoop name r rest (pollFold name poll ips) =
              some j ↔
            (j < rest.length ∧
             r ≤ ((cumIps name (rest.take (j + 1))
               (pollFold name poll ips)).length : Int) ∧
             ((cumIps name (rest.take j)
               (pollFold name poll ips)).length : Int) < r) :=
          ih (pollFold name poll ips) j hlt
        simp only [List.take_succ_cons, cumIps_cons, List.length_cons]
        constructor
        · intro hc
          rcases Option.map_eq_some'.mp hc with ⟨a, ha, hinj⟩
          have haj : a = j := by omega
          subst haj
          have := hstep.mp ha
          exact ⟨by omega, this.2.1, this.2.2⟩
        · intro hc
          have := hstep.mpr ⟨by omega, hc.2.1, hc.2.2⟩
          rw [this]
          rfl

/-- C7: for every unit (with a positive desired replica count, as the
spec's contract requires), `_K8sDeployment.wait_start_success`
returns exactly when the set of distinct pod IPs whose listed phase is
`'Running'`, among pods whose `'app'` label equals the unit's name,
reaches the unit's desired replica count: it returns during poll `i`
iff `i` is the first poll after which that accumulated set has grown
to `num_replicas` distinct IPs. -/
theorem C7_readiness_convergence (name : String) (r : Int)
    (polls : List (List PodInfo)) (hr : 1 ≤ r) (i : Nat) :
    wait_start_success_sim name r polls = some i ↔
      (i < polls.length ∧
       r ≤ ((runningIps name (polls.take (i + 1))).length : Int) ∧
       ((runningIps name (polls.take i)).length : Int) < r) := by
  have h0 : ((([] : List String).length : Int) < r) := by simp; omega
  exact waitLoop_eq_some_iff name r polls [] i h0

/-- A pod of unit `u` observed `Running` at IP `ip1`. -/
def pod_u1 : PodInfo :=
  { app_label := "u", phase := "Running", pod_ip := "ip1" }

def pod_u2 : PodInfo :=
  { app_label := "u", phase := "Running", pod_ip := "ip2" }

/-- The claim's simulated schedule: 0 running pods for the first two
polls, `replica_count = 2` running pods with distinct IPs from the
third poll on. -/
def polls_u : List (List PodInfo) := [[], [], [pod_u1, pod_u2]]

theorem C7_readiness_convergence_witness :
    wait_start_success_sim "u" 2 polls_u = some 2 ∧
    wait_start_success_sim "u" 2 (polls_u.take 2) = none :=
  ⟨(C7_readiness_convergence "u" 2 polls_u (by decide) 2).mpr (by decide),
    by decide⟩

/-- A pod of unit `v` observed `Running` at IP `ipa`. -/
def pod_v1 : PodInfo :=
  { app_label := "v", phase := "Running", pod_ip := "ipa" }

/-- A different pod of unit `v`: by the second poll `pod_v1` has
died — only `pod_v2` is listed as running. -/
def pod_v2 : PodInfo :=
  { app_label := "v", phase := "Running", pod_ip := "ipb" }

/-- C9 (implicit): the pod-IP set of `wait_start_success` is created
once before the polling loop and never cleared between iterations:
every IP present before an iteration is still present after it (the
set grows monotonically across polls), so an IP observed `Running` in
an earlier poll counts toward readiness forever.  Consequently the
method can return even though no single poll ever reports
`num_replicas` simultaneously running pods: with `num_replicas = 2`
and a schedule whose polls each list only one running pod, it
returns during the second poll. -/
theorem C9_ip_set_grows_monotonically :
    (∀ (name : String) (polls : List (List PodInfo))
        (ips : List String) (ip : String),
      ip ∈ ips → ip ∈ cumIps name polls ips) ∧
    wait_start_success_sim "v" 2 [[pod_v1], [pod_v2]] = some 1 ∧
    singlePollRunningCount "v" [pod_v1] = 1 ∧
    singlePollRunningCount "v" [pod_v2] = 1 :=
  ⟨fun name polls ips ip h => mem_cumIps name polls ips ip h,
    by decide, by decide, by decide⟩

theorem C9_ip_set_grows_monotonically_witness :
    "ipa" ∈ cumIps "v" [[pod_v2]] ["ipa"] :=
  C9_ip_set_grows_monotonically.1 "v" [[pod_v2]] ["ipa"] "ipa"
    (by decide)

end K8s
